import Mathlib

/- Verification of proxy-handler-decorators (src/index.ts): a shallow
embedding of the five proxy-handler layer decorators (TargetAsThis,
DefaultToPrimitive, DefaultToStringTag, AllowGetTarget, Mapped) and of the
getTarget accessor, together with theorems settling the specified
properties of the composition mechanism. -/

set_option maxHeartbeats 1000000

namespace PHDecorators

/-- Property keys of the host runtime: strings, the well-known symbols
Symbol.toPrimitive and Symbol.toStringTag, the module-private symbol
getTargetSymbol (src/index.ts line 178), and other symbols. -/
inductive Key where
  | str (s : String)
  | symToPrimitive
  | symToStringTag
  | symGetTarget
  | sym (n : Nat)
deriving DecidableEq

/-- Faults of the host runtime: the TypeError raised by member access on a
nullish value or by Reflect.get on a non-object, and arbitrary errors
thrown by user code such as a base handler. -/
inductive JSErr where
  | typeError (msg : String)
  | userError (n : Nat)
deriving DecidableEq

mutual
/-- Runtime values. Objects carry an identity tag (standing for reference
identity), an own-property list and a prototype slot. A proxyRef is an
abstract reference to a proxy object, used as the receiver argument that
the host passes to handler operations. -/
inductive Value where
  | undef
  | null
  | bool (b : Bool)
  | num (n : Int)
  | str (s : String)
  | obj (id : Nat) (props : List (Key × Value)) (proto : Value)
  | func (f : FnData)
  | proxyRef (id : Nat)

/-- Callable values: uninterpreted host functions, the wrapper closures
allocated by TargetAsThis (src/index.ts lines 85 to 99; allocId tags the
allocation), and the hint function allocated by DefaultToPrimitive
(src/index.ts lines 123 to 132). -/
inductive FnData where
  | base (id : Nat) (name : String)
  | wrapper (orig : FnData) (target : Value) (receiver : Value) (allocId : Nat)
  | toPrimFn (target : Value)
end

/-- Lookup of a key in an own-property list. -/
def findProp : List (Key × Value) → Key → Option Value
  | [], _ => none
  | (k, v) :: rest, k0 => if k = k0 then some v else findProp rest k0

/-- Ordinary property read on a plain object, walking the prototype chain;
yields undefined when the key is absent, and undefined on non-objects. -/
def objGet : Value → Key → Value
  | .obj _ props proto, k =>
    match findProp props k with
    | some v => v
    | none => objGet proto k
  | _, _ => (.undef)

/-- Whether a key occurs anywhere in the prototype chain of a value. -/
def chainHas : Value → Key → Bool
  | .obj _ props proto, k => (findProp props k).isSome || chainHas proto k
  | _, _ => false

/-- Displayed name of a callable. The TargetAsThis wrapper copies the name
of the wrapped callable (src/index.ts lines 95 to 98); the hint function of
DefaultToPrimitive is an anonymous arrow function. -/
def fnName : FnData → String
  | .base _ name => name
  | .wrapper orig _ _ _ => fnName orig
  | .toPrimFn _ => ""

/-- Whether the name property of a callable is writable. The TargetAsThis
wrapper defines it with writable false (src/index.ts lines 95 to 98); the
host default for function names is also writable false. -/
def fnNameWritable : FnData → Bool
  | .base _ _ => false
  | .wrapper _ _ _ _ => false
  | .toPrimFn _ => false

/-- Identity tag of a callable, injective across the allocation tags of
wrappers, standing for reference identity of function objects. -/
def fnId : FnData → Nat
  | .base i _ => 2 * i
  | .wrapper _ _ _ a => 2 * a + 1
  | .toPrimFn _ => 0

/-- Strict equality of the host runtime: primitives by content, objects,
functions and proxies by reference identity. -/
def strictEq : Value → Value → Bool
  | .undef, .undef => true
  | .null, .null => true
  | .bool a, .bool b => a == b
  | .num a, .num b => a == b
  | .str a, .str b => a == b
  | .obj i _ _, .obj j _ _ => i == j
  | .func f, .func g => fnId f == fnId g
  | .proxyRef i, .proxyRef j => i == j
  | _, _ => false

/-- Host primitives that the layers call but do not define: the semantics of
uninterpreted base functions, and the coercions String(x), Number(x) and
x.valueOf() used by DefaultToPrimitive (src/index.ts lines 126 to 130). -/
structure Host where
  callBase : Nat → Value → List Value → Except JSErr Value
  jsString : Value → Except JSErr Value
  jsNumber : Value → Except JSErr Value
  jsValueOf : Value → Except JSErr Value

/-- Invocation of a callable with an explicit receiver and argument list.
The wrapper case is the closure body at src/index.ts lines 89 to 93: it
forwards to the wrapped callable, rebinding the receiver to the raw target
exactly when the incoming receiver is strictly equal to the captured
receiver proxy. The toPrimFn case is the hint function at lines 123 to 132:
a switch on the hint with no default clause, so any other hint falls out of
the function and yields undefined. -/
def applyFn (H : Host) : FnData → Value → List Value → Except JSErr Value
  | .base i _, thisArg, args => H.callBase i thisArg args
  | .wrapper f target receiver _, thisArg, args =>
      applyFn H f (if strictEq thisArg receiver then target else thisArg) args
  | .toPrimFn target, _, args =>
      match args.headD .undef with
      | .str "string" => H.jsString target
      | .str "number" => H.jsNumber target
      | .str "default" => H.jsValueOf target
      | _ => .ok (.undef)

/-- Type of the get operation of a proxy handler: target, property key and
receiver proxy to a result or a thrown fault. -/
abbrev GetHandler : Type := Value → Key → Value → Except JSErr Value

/-- Read of a function own property, covering the name property set by
TargetAsThis; every other key, in particular the private getTargetSymbol,
is absent from function objects. -/
def funcGet (f : FnData) : Key → Value
  | .str "name" => .str (fnName f)
  | _ => (.undef)

/-- Model of Reflect.get, the fallback used by every layer when the base
class has no get method (the expression super.get ?? Reflect.get), and the
behavior of the root DefaultProxyHandler. Reflect.get throws a TypeError
when called on a non-object. -/
def reflectGet : GetHandler := fun target p _receiver =>
  match target with
  | .obj i props proto => .ok (objGet (.obj i props proto) p)
  | .func f => .ok (funcGet f p)
  | .proxyRef i => .ok (objGet (.proxyRef i) p)
  | _ => .error (.typeError "Reflect.get called on non-object")

/-- Get method of the TargetAsThis decorator (src/index.ts lines 82 to 103):
delegate first; wrap a callable result in a fresh closure that rebinds the
receiver, returning every other result unchanged. The pure model tags the
wrapper allocation with 0. -/
def TargetAsThisGet (superGet : GetHandler) : GetHandler := fun target p receiver =>
  match superGet target p receiver with
  | .error e => .error e
  | .ok (.func f) => .ok (.func (.wrapper f target receiver 0))
  | .ok property => .ok property

/-- Allocation-counting variant of the TargetAsThis get method: identical to
TargetAsThisGet except that the identity tag of the wrapper closure is drawn
from an explicit allocation counter, making the fresh allocation performed
on every read (src/index.ts lines 85 to 99) observable. -/
def TargetAsThisGetAlloc (superGet : GetHandler) (target : Value) (p : Key)
    (receiver : Value) (ctr : Nat) : Except JSErr Value × Nat :=
  match superGet target p receiver with
  | .error e => (.error e, ctr)
  | .ok (.func f) => (.ok (.func (.wrapper f target receiver ctr)), ctr + 1)
  | .ok property => (.ok property, ctr)

/-- Get method of the DefaultToPrimitive decorator (src/index.ts lines 118
to 139): delegate first; only when the result is undefined and the key is
Symbol.toPrimitive, return the hint function; any other key with an
undefined result stays undefined. -/
def DefaultToPrimitiveGet (superGet : GetHandler) : GetHandler := fun target p receiver =>
  match superGet target p receiver with
  | .error e => .error e
  | .ok .undef =>
    match p with
    | .symToPrimitive => .ok (.func (.toPrimFn target))
    | _ => .ok .undef
  | .ok property => .ok property

/-- Model of Object.getPrototypeOf restricted to the shapes a proxy target
can take in this model; the prototype slot of plain objects. -/
def jsGetPrototypeOf : Value → Value
  | .obj _ _ proto => proto
  | _ => .null

/-- Model of the optional-chain expression prototype?.constructor at
src/index.ts line 161: undefined on a nullish prototype, otherwise an
ordinary property read of the key constructor. -/
def optChainConstructor : Value → Value
  | .null => .undef
  | .undef => .undef
  | v => objGet v (.str "constructor")

/-- Get method of the DefaultToStringTag decorator (src/index.ts lines 154
to 174): delegate first; only when the result is undefined and the key is
Symbol.toStringTag, read the constructor of the prototype of the target and
return its name when it is callable, and undefined otherwise. -/
def DefaultToStringTagGet (superGet : GetHandler) : GetHandler := fun target p receiver =>
  match superGet target p receiver with
  | .error e => .error e
  | .ok .undef =>
    match p with
    | .symToStringTag =>
      match optChainConstructor (jsGetPrototypeOf target) with
      | .func f => .ok (.str (fnName f))
      | _ => .ok .undef
    | _ => .ok .undef
  | .ok property => .ok property

/-- Get method of the AllowGetTarget decorator (src/index.ts lines 198 to
205): the reserved key getTargetSymbol returns the raw target before any
delegation; every other key delegates. -/
def AllowGetTargetGet (superGet : GetHandler) : GetHandler := fun target p receiver =>
  match p with
  | .symGetTarget => .ok target
  | _ => superGet target p receiver

/-- Get method after the Mapped decorator (src/index.ts lines 220 to 225)
has rewritten it: the key get is an own property of Reflect, so the method
is replaced by one that passes mapper target in place of target and every
remaining argument unchanged. -/
def MappedGet (mapper : Value → Value) (superGet : GetHandler) : GetHandler :=
  fun target p receiver => superGet (mapper target) p receiver

/-- Descriptor of one layer in a decorator stack. -/
inductive LayerD where
  | targetAsThis
  | defaultToPrimitive
  | defaultToStringTag
  | allowGetTarget
  | mapped (mapper : Value → Value)

/-- The get method contributed by one layer descriptor. -/
def applyLayerGet : LayerD → GetHandler → GetHandler
  | .targetAsThis => TargetAsThisGet
  | .defaultToPrimitive => DefaultToPrimitiveGet
  | .defaultToStringTag => DefaultToStringTagGet
  | .allowGetTarget => AllowGetTargetGet
  | .mapped mapper => MappedGet mapper

/-- Composed get method of a decorator stack over a base handler; the head
of the list is the outermost layer, evaluated first, exactly as the last
applied decorator is in the source. -/
def composedGet : List LayerD → GetHandler → GetHandler
  | [], base => base
  | l :: rest, base => applyLayerGet l (composedGet rest base)

/-- Argument of a getTarget query: either a plain value, or a proxy given by
its target, the composed get method of its handler and its identity tag. -/
inductive QueryValue where
  | plain (v : Value)
  | proxied (target : Value) (handlerGet : GetHandler) (proxyId : Nat)

/-- Model of getTarget (src/index.ts lines 184 to 186): a member read of the
reserved key getTargetSymbol on the argument. On a proxy the read routes to
the handler get method with the proxy itself as receiver; on a nullish value
the member read itself throws a TypeError; on any other plain value the
reserved key is looked up and, being module private, is normally absent. -/
def getTarget : QueryValue → Except JSErr Value
  | .plain .undef => .error (.typeError "Cannot read properties of undefined")
  | .plain .null => .error (.typeError "Cannot read properties of null")
  | .plain (.obj i props proto) => .ok (objGet (.obj i props proto) .symGetTarget)
  | .plain (.func f) => .ok (funcGet f .symGetTarget)
  | .plain _ => .ok .undef
  | .proxied target handlerGet pid => handlerGet target .symGetTarget (.proxyRef pid)

/-- Type of a general handler operation as the Mapped decorator sees it
(src/index.ts lines 221 to 224): the target followed by the remaining
arguments of the operation. -/
abbrev Op : Type := Value → List Value → Except JSErr Value

/-- Method table of a proxy handler, indexed by method name, covering own
and inherited methods since DecorateAll is invoked with deep true. -/
abbrev HandlerTable : Type := String → Option Op

/-- The own function-valued property names of the Reflect object: the fixed
interception vocabulary tested by the hasOwnProperty check at src/index.ts
line 220. -/
def reflectOwnNames : List String :=
  ["apply", "construct", "defineProperty", "deleteProperty", "get",
   "getOwnPropertyDescriptor", "getPrototypeOf", "has", "isExtensible",
   "ownKeys", "preventExtensions", "set", "setPrototypeOf"]

/-- Model of Object.prototype.hasOwnProperty.call(Reflect, propertyKey) for
string keys. -/
def reflectHasOwn (name : String) : Bool := reflectOwnNames.contains name

/-- Rewritten descriptor value installed by the Mapped decorator
(src/index.ts lines 223 to 224): the original operation applied to
mapper target and the unchanged remaining arguments. -/
def MappedOp (mapper : Value → Value) (op : Op) : Op :=
  fun target restAugments => op (mapper target) restAugments

/-- Effect of the Mapped decorator on a whole method table: every method
whose name is an own property of Reflect is rewritten by MappedOp, every
other method is left as it was, and absent methods stay absent. -/
def MappedTable (mapper : Value → Value) (h : HandlerTable) : HandlerTable :=
  fun name =>
    match h name with
    | some op => some (if reflectHasOwn name then MappedOp mapper op else op)
    | none => none

/-- Handler operation instrumented with an invocation counter, used to count
how often the mapper runs. -/
abbrev OpC : Type := Value → List Value → Nat → Except JSErr Value × Nat

/-- Counter instrumentation of a mapper: each invocation increments the
counter by one, like the counter in the doctest of src/index.ts. -/
def countingMapper (mapper : Value → Value) : Value → Nat → Value × Nat :=
  fun v n => (mapper v, n + 1)

/-- Counter-instrumented form of the rewritten descriptor value: the mapper
runs once, then the original operation runs on the mapped target. -/
def MappedOpC (mapperC : Value → Nat → Value × Nat) (op : OpC) : OpC :=
  fun target restAugments n =>
    op (mapperC target n).1 restAugments (mapperC target n).2

/-- Registry of handler classes, standing for the class objects of the host
runtime: an allocation counter and a table from class identity to the get
method of instances of the class. -/
structure ClassStore where
  nextId : Nat
  table : List (Nat × GetHandler)

/-- Lookup of a class by identity in a registry table. -/
def storeLookup : List (Nat × GetHandler) → Nat → Option GetHandler
  | [], _ => none
  | (i, g) :: rest, j => if i = j then some g else storeLookup rest j

/-- In-place rewrite of the entry of one class in a registry table. -/
def updateClass (t : List (Nat × GetHandler)) (i : Nat)
    (f : GetHandler → GetHandler) : List (Nat × GetHandler) :=
  match t with
  | [] => []
  | (j, g) :: rest =>
    if j = i then (j, f g) :: rest else (j, g) :: updateClass rest i f

/-- The four subclassing decorators: each one returns a fresh class
extending the class it is applied to (src/index.ts lines 81, 117, 153 and
197). -/
inductive SubLayer where
  | targetAsThis
  | defaultToPrimitive
  | defaultToStringTag
  | allowGetTarget

/-- The get method that a subclassing decorator installs over the get method
of its superclass. -/
def subLayerGet : SubLayer → GetHandler → GetHandler
  | .targetAsThis => TargetAsThisGet
  | .defaultToPrimitive => DefaultToPrimitiveGet
  | .defaultToStringTag => DefaultToStringTagGet
  | .allowGetTarget => AllowGetTargetGet

/-- Application of one of the four subclassing decorators to the class with
identity supId: a new class is allocated whose get method wraps the get
method of the superclass (or Reflect.get when the superclass has none), and
the registry gains the new class without touching any existing entry. -/
def decorateSubclass (l : SubLayer) (supId : Nat) (s : ClassStore) :
    Nat × ClassStore :=
  let supGet := (storeLookup s.table supId).getD reflectGet
  (s.nextId, ⟨s.nextId + 1, (s.nextId, subLayerGet l supGet) :: s.table⟩)

/-- Application of the Mapped decorator to the class with identity
appliedId. Mapped returns void (src/index.ts lines 209 to 213): no new
class is allocated; instead DecorateAll redefines the Reflect-named methods
in place on the prototype of the constructor it is applied to, which for
the get method amounts to wrapping it with MappedGet. -/
def decorateMapped (mapper : Value → Value) (appliedId : Nat) (s : ClassStore) :
    ClassStore :=
  ⟨s.nextId, updateClass s.table appliedId (MappedGet mapper)⟩

/-- Strict equality is reflexive, as the host identity comparison is. -/
theorem strictEq_refl (v : Value) : strictEq v v = true := by
  cases v <;> simp [strictEq]

/-- A value whose prototype chain lacks a key reads as undefined at it. -/
theorem objGet_eq_undef_of_chainHas_false :
    ∀ (v : Value) (k : Key), chainHas v k = false → objGet v k = .undef
  | .obj i props proto, k, h => by
    unfold chainHas at h
    rcases hfp : findProp props k with _ | v0
    · have hproto : chainHas proto k = false := by
        rw [hfp] at h
        simpa using h
      unfold objGet
      rw [hfp]
      exact objGet_eq_undef_of_chainHas_false proto k hproto
    · rw [hfp] at h
      simp at h
  | .undef, _, _ => rfl
  | .null, _, _ => rfl
  | .bool _, _, _ => rfl
  | .num _, _, _ => rfl
  | .str _, _, _ => rfl
  | .func _, _, _ => rfl
  | .proxyRef _, _, _ => rfl

/-- A stack without the AllowGetTarget layer, over a base that reports the
reserved key as absent for every target, reports the reserved key as absent:
no other layer can produce a value at the module-private key. -/
theorem composed_reserved_undef :
    ∀ (layers : List LayerD) (base : GetHandler),
      (∀ t r, base t Key.symGetTarget r = .ok .undef) →
      LayerD.allowGetTarget ∉ layers →
      ∀ t r, composedGet layers base t Key.symGetTarget r = .ok .undef := by
  intro layers base hbase hmem
  induction layers with
  | nil => exact hbase
  | cons l rest ih =>
    have hrest : LayerD.allowGetTarget ∉ rest := fun h => hmem (List.mem_cons_of_mem _ h)
    have ihr := ih hrest
    intro t r
    cases l with
    | targetAsThis =>
      simp only [composedGet, applyLayerGet, TargetAsThisGet]
      rw [ihr t r]
    | defaultToPrimitive =>
      simp only [composedGet, applyLayerGet, DefaultToPrimitiveGet]
      rw [ihr t r]
    | defaultToStringTag =>
      simp only [composedGet, applyLayerGet, DefaultToStringTagGet]
      rw [ihr t r]
    | allowGetTarget => exact absurd (List.mem_cons_self _ _) hmem
    | mapped mapper =>
      simp only [composedGet, applyLayerGet, MappedGet]
      exact ihr (mapper t) r

/-- A non-callable result of delegation passes through TargetAsThis
unchanged (src/index.ts lines 100 to 102). -/
theorem TargetAsThisGet_ok_of_not_func (superGet : GetHandler) (t : Value)
    (p : Key) (r : Value) (v : Value) (hv : superGet t p r = .ok v)
    (hnf : ∀ f, v ≠ Value.func f) : TargetAsThisGet superGet t p r = .ok v := by
  simp only [TargetAsThisGet]
  rw [hv]
  cases v with
  | func f => exact absurd rfl (hnf f)
  | undef => rfl
  | null => rfl
  | bool b => rfl
  | num n => rfl
  | str s => rfl
  | obj i props proto => rfl
  | proxyRef i => rfl

/-- A result of delegation other than undefined passes through
DefaultToPrimitive unchanged (src/index.ts lines 136 to 138). -/
theorem DefaultToPrimitiveGet_ok_of_ne_undef (superGet : GetHandler)
    (t : Value) (p : Key) (r : Value) (v : Value) (hv : superGet t p r = .ok v)
    (hne : v ≠ Value.undef) : DefaultToPrimitiveGet superGet t p r = .ok v := by
  simp only [DefaultToPrimitiveGet]
  rw [hv]
  cases v with
  | undef => exact absurd rfl hne
  | null => rfl
  | bool b => rfl
  | num n => rfl
  | str s => rfl
  | obj i props proto => rfl
  | func f => rfl
  | proxyRef i => rfl

/-- A result of delegation other than undefined passes through
DefaultToStringTag unchanged (src/index.ts lines 171 to 173). -/
theorem DefaultToStringTagGet_ok_of_ne_undef (superGet : GetHandler)
    (t : Value) (p : Key) (r : Value) (v : Value) (hv : superGet t p r = .ok v)
    (hne : v ≠ Value.undef) : DefaultToStringTagGet superGet t p r = .ok v := by
  simp only [DefaultToStringTagGet]
  rw [hv]
  cases v with
  | undef => exact absurd rfl hne
  | null => rfl
  | bool b => rfl
  | num n => rfl
  | str s => rfl
  | obj i props proto => rfl
  | func f => rfl
  | proxyRef i => rfl

/-- Proxy targets: plain objects or proxies, excluding callables. -/
def IsNonCallableObject : Value → Prop
  | .obj _ _ _ => True
  | .proxyRef _ => True
  | _ => False

/-- A non-callable object is not the undefined value. -/
theorem IsNonCallableObject.ne_undef {v : Value} (h : IsNonCallableObject v) :
    v ≠ Value.undef := by
  cases v <;> simp [IsNonCallableObject] at h ⊢

/-- A non-callable object is not a callable. -/
theorem IsNonCallableObject.not_func {v : Value} (h : IsNonCallableObject v) :
    ∀ f, v ≠ Value.func f := by
  cases v <;> simp [IsNonCallableObject] at h ⊢

/-- Each of the four subclassing layers, evaluated at the reserved key on a
non-callable object target, passes an inner result equal to that target
through unchanged; the AllowGetTarget layer even ignores the inner result. -/
theorem composed_reserved_passthrough :
    ∀ (above below : List LayerD) (base : GetHandler) (target : Value),
      (∀ l ∈ above, ∀ mapper, l ≠ LayerD.mapped mapper) →
      IsNonCallableObject target →
      ∀ r, composedGet (above ++ LayerD.allowGetTarget :: below) base
             target Key.symGetTarget r = .ok target := by
  intro above below base target hnomap hobj
  induction above with
  | nil =>
    intro r
    simp [composedGet, applyLayerGet, AllowGetTargetGet]
  | cons l rest ih =>
    have hrest : ∀ l0 ∈ rest, ∀ mapper, l0 ≠ LayerD.mapped mapper :=
      fun l0 h0 => hnomap l0 (List.mem_cons_of_mem _ h0)
    have ihr := ih hrest
    intro r
    cases l with
    | targetAsThis =>
      exact TargetAsThisGet_ok_of_not_func _ _ _ _ _ (ihr r) hobj.not_func
    | defaultToPrimitive =>
      exact DefaultToPrimitiveGet_ok_of_ne_undef _ _ _ _ _ (ihr r) hobj.ne_undef
    | defaultToStringTag =>
      exact DefaultToStringTagGet_ok_of_ne_undef _ _ _ _ _ (ihr r) hobj.ne_undef
    | allowGetTarget =>
      simp [composedGet, applyLayerGet, AllowGetTargetGet]
    | mapped mapper =>
      exact absurd rfl (hnomap _ (List.mem_cons_self _ _) mapper)

/-- Lookup in a registry table is unchanged at every identity other than the
one of an in-place rewrite. -/
theorem storeLookup_updateClass_ne :
    ∀ (t : List (Nat × GetHandler)) (i j : Nat) (f : GetHandler → GetHandler),
      j ≠ i → storeLookup (updateClass t i f) j = storeLookup t j := by
  intro t i j f hne
  induction t with
  | nil => rfl
  | cons p rest ih =>
    obtain ⟨k, g⟩ := p
    by_cases hk : k = i
    · subst hk
      simp only [updateClass, if_pos rfl, storeLookup]
      rw [if_neg (fun h => hne h.symm), if_neg (fun h => hne h.symm)]
    · simp only [updateClass, if_neg hk, storeLookup]
      by_cases hkj : k = j
      · rw [if_pos hkj, if_pos hkj]
      · rw [if_neg hkj, if_neg hkj]
        exact ih

/-- C1 (counterexample): for the target obj 0 and the ordering of the five
layers with Mapped stacked above AllowGetTarget, getTarget on the resulting
proxy returns the mapped object, not the original target, refuting the
claim that the ordering of the other layers does not matter. -/
theorem getTarget_mapped_above_allowGetTarget_cex :
    getTarget (.proxied (.obj 0 [] .null)
      (composedGet [LayerD.mapped (fun _ => Value.obj 999 [] .null),
        LayerD.allowGetTarget, LayerD.targetAsThis, LayerD.defaultToPrimitive,
        LayerD.defaultToStringTag] reflectGet) 5)
      = .ok (.obj 999 [] .null)
    ∧ Value.obj 999 [] .null ≠ Value.obj 0 [] .null := by
  exact ⟨rfl, by simp⟩

/-- C1 (amended): for every non-callable object target and every decorator
stack that contains the AllowGetTarget layer with no Mapped layer stacked
above it, getTarget on the resulting proxy returns exactly the original
target, regardless of the layers below and of the non-Mapped layers above. -/
theorem getTarget_allowGetTarget_in_stack
    (above below : List LayerD) (base : GetHandler) (target : Value) (pid : Nat)
    (hnomap : ∀ l ∈ above, ∀ mapper, l ≠ LayerD.mapped mapper)
    (hobj : IsNonCallableObject target) :
    getTarget (.proxied target
      (composedGet (above ++ LayerD.allowGetTarget :: below) base) pid)
      = .ok target :=
  composed_reserved_passthrough above below base target hnomap hobj (.proxyRef pid)

/-- C1 (witness): the amended statement at a concrete stack with the three
other subclassing layers above AllowGetTarget and a Mapped layer below. -/
theorem getTarget_allowGetTarget_in_stack_witness :
    getTarget (.proxied (.obj 3 [] .null)
      (composedGet ([LayerD.targetAsThis, LayerD.defaultToPrimitive,
          LayerD.defaultToStringTag] ++ LayerD.allowGetTarget ::
          [LayerD.mapped (fun _ => Value.null)]) reflectGet) 9)
      = .ok (.obj 3 [] .null) :=
  getTarget_allowGetTarget_in_stack _ _ _ _ _
    (by intro l hl mapper hEq
        subst hEq
        simp at hl)
    trivial

/-- C8: for every stack omitting the AllowGetTarget layer over a base
handler that reports the reserved key as absent for every target (the key
is module private and unforgeable, so no base handler and no target outside
the module can produce it), getTarget on the resulting proxy returns the
missing sentinel. -/
theorem getTarget_without_allowGetTarget
    (layers : List LayerD) (base : GetHandler) (target : Value) (pid : Nat)
    (hbase : ∀ t r, base t Key.symGetTarget r = .ok .undef)
    (hmem : LayerD.allowGetTarget ∉ layers) :
    getTarget (.proxied target (composedGet layers base) pid) = .ok .undef :=
  composed_reserved_undef layers base hbase hmem target (.proxyRef pid)

/-- C8 (witness): the statement at a concrete stack of the four other
layers over a base that lacks the reserved key. -/
theorem getTarget_without_allowGetTarget_witness :
    getTarget (.proxied (.obj 0 [] .null)
      (composedGet [LayerD.targetAsThis, LayerD.mapped (fun v => v),
          LayerD.defaultToPrimitive, LayerD.defaultToStringTag]
        (fun _ _ _ => .ok .undef)) 2)
      = .ok .undef :=
  getTarget_without_allowGetTarget _ _ _ _ (fun _ _ => rfl)
    (by intro h; simp at h)

/-- C3 (counterexample): getTarget applied to null performs a member read on
null and therefore throws a TypeError instead of returning the missing
sentinel, refuting the claim that it never raises a fault on any input. -/
theorem getTarget_null_throws_cex :
    getTarget (.plain .null)
      = .error (.typeError "Cannot read properties of null") := rfl

/-- C3 (amended): getTarget returns the missing sentinel undefined, and
raises no fault, for every non-nullish input with no target available:
primitives, callables, plain objects whose chain lacks the unforgeable
reserved key, and proxies whose stack omits the AllowGetTarget layer; on
null and undefined the member read itself throws a TypeError. -/
theorem getTarget_nonnullish_spec :
    (∀ v : Value, v ≠ .null → v ≠ .undef →
       chainHas v Key.symGetTarget = false →
       getTarget (.plain v) = .ok .undef) ∧
    (∀ (layers : List LayerD) (base : GetHandler) (target : Value) (pid : Nat),
       (∀ t r, base t Key.symGetTarget r = .ok .undef) →
       LayerD.allowGetTarget ∉ layers →
       getTarget (.proxied target (composedGet layers base) pid) = .ok .undef) := by
  constructor
  · intro v hnull hundef hchain
    cases v with
    | undef => exact absurd rfl hundef
    | null => exact absurd rfl hnull
    | bool b => rfl
    | num n => rfl
    | str s => rfl
    | proxyRef i => rfl
    | func f => rfl
    | obj i props proto =>
      show Except.ok (objGet (.obj i props proto) Key.symGetTarget) = .ok .undef
      rw [objGet_eq_undef_of_chainHas_false _ _ hchain]
  · intro layers base target pid hbase hmem
    exact composed_reserved_undef layers base hbase hmem target (.proxyRef pid)

/-- C3 (witness): the amended statement at a number and at a proxy over a
one-layer stack without AllowGetTarget. -/
theorem getTarget_nonnullish_spec_witness :
    getTarget (.plain (.num 42)) = .ok .undef ∧
    getTarget (.proxied (.obj 0 [] .null)
      (composedGet [LayerD.targetAsThis] (fun _ _ _ => .ok .undef)) 1)
      = .ok .undef :=
  ⟨getTarget_nonnullish_spec.1 (.num 42) (by simp) (by simp) rfl,
   getTarget_nonnullish_spec.2 [LayerD.targetAsThis] _ _ 1 (fun _ _ => rfl)
     (by intro h; simp at h)⟩

/-- C9: every layer propagates a fault thrown by the code it delegates to
unmodified: TargetAsThis, DefaultToPrimitive and DefaultToStringTag fail
with the inner error on every access, AllowGetTarget does on every access
that delegates (every key other than the reserved one), and an operation
rewritten by Mapped fails with the inner error whenever the original
operation throws on the mapped target. -/
theorem layers_propagate_errors :
    (∀ (g : GetHandler) (t : Value) (p : Key) (r : Value) (e : JSErr),
       g t p r = .error e → TargetAsThisGet g t p r = .error e) ∧
    (∀ (g : GetHandler) (t : Value) (p : Key) (r : Value) (e : JSErr),
       g t p r = .error e → DefaultToPrimitiveGet g t p r = .error e) ∧
    (∀ (g : GetHandler) (t : Value) (p : Key) (r : Value) (e : JSErr),
       g t p r = .error e → DefaultToStringTagGet g t p r = .error e) ∧
    (∀ (g : GetHandler) (t : Value) (p : Key) (r : Value) (e : JSErr),
       p ≠ Key.symGetTarget → g t p r = .error e →
       AllowGetTargetGet g t p r = .error e) ∧
    (∀ (g : GetHandler) (mapper : Value → Value) (t : Value) (p : Key)
       (r : Value) (e : JSErr),
       g (mapper t) p r = .error e → MappedGet mapper g t p r = .error e) := by
  refine ⟨?_, ?_, ?_, ?_, ?_⟩
  · intro g t p r e h
    simp only [TargetAsThisGet]
    rw [h]
  · intro g t p r e h
    simp only [DefaultToPrimitiveGet]
    rw [h]
  · intro g t p r e h
    simp only [DefaultToStringTagGet]
    rw [h]
  · intro g t p r e hp h
    simp only [AllowGetTargetGet]
    cases p with
    | symGetTarget => exact absurd rfl hp
    | str s => exact h
    | symToPrimitive => exact h
    | symToStringTag => exact h
    | sym n => exact h
  · intro g mapper t p r e h
    exact h

/-- C9 (witness): each propagation statement at a base handler throwing a
concrete error. -/
theorem layers_propagate_errors_witness :
    TargetAsThisGet (fun _ _ _ => .error (.userError 7)) .undef (.str "a") .undef
      = .error (.userError 7) ∧
    DefaultToPrimitiveGet (fun _ _ _ => .error (.userError 7)) .undef (.str "a") .undef
      = .error (.userError 7) ∧
    DefaultToStringTagGet (fun _ _ _ => .error (.userError 7)) .undef (.str "a") .undef
      = .error (.userError 7) ∧
    AllowGetTargetGet (fun _ _ _ => .error (.userError 7)) .undef (.str "a") .undef
      = .error (.userError 7) ∧
    MappedGet (fun v => v) (fun _ _ _ => .error (.userError 7)) .undef (.str "a") .undef
      = .error (.userError 7) :=
  ⟨layers_propagate_errors.1 _ _ _ _ _ rfl,
   layers_propagate_errors.2.1 _ _ _ _ _ rfl,
   layers_propagate_errors.2.2.1 _ _ _ _ _ rfl,
   layers_propagate_errors.2.2.2.1 _ _ _ _ _ (by decide) rfl,
   layers_propagate_errors.2.2.2.2 _ _ _ _ _ _ rfl⟩

/-- A concrete host used by witnesses: base functions echo their receiver,
and the coercions are constant. -/
def trivialHost : Host :=
  ⟨fun _ thisArg _ => .ok thisArg,
   fun _ => .ok (.str "s"),
   fun _ => .ok (.num 0),
   fun v => .ok v⟩

/-- C5: through a TargetAsThis-decorated handler, a callable result of
delegation is replaced by a wrapper with the same displayed name; invoking
the wrapper with a receiver identical to the captured receiver proxy
invokes the original with the receiver rebound to the raw target, invoking
it with any other receiver invokes the original with that receiver and the
same arguments unchanged; a non-callable result passes through unchanged. -/
theorem targetAsThis_get_spec (H : Host) (superGet : GetHandler)
    (target : Value) (p : Key) (receiver : Value) :
    (∀ f : FnData, superGet target p receiver = .ok (.func f) →
       TargetAsThisGet superGet target p receiver
         = .ok (.func (.wrapper f target receiver 0)) ∧
       fnName (.wrapper f target receiver 0) = fnName f ∧
       (∀ thisArg args, strictEq thisArg receiver = true →
          applyFn H (.wrapper f target receiver 0) thisArg args
            = applyFn H f target args) ∧
       (∀ thisArg args, strictEq thisArg receiver = false →
          applyFn H (.wrapper f target receiver 0) thisArg args
            = applyFn H f thisArg args)) ∧
    (∀ v : Value, superGet target p receiver = .ok v →
       (∀ f, v ≠ .func f) →
       TargetAsThisGet superGet target p receiver = .ok v) := by
  constructor
  · intro f hf
    refine ⟨?_, rfl, ?_, ?_⟩
    · simp only [TargetAsThisGet]
      rw [hf]
    · intro thisArg args hEq
      simp [applyFn, hEq]
    · intro thisArg args hne
      simp [applyFn, hne]
  · intro v hv hnf
    exact TargetAsThisGet_ok_of_not_func _ _ _ _ _ hv hnf

/-- C5 (witness): a concrete method read through TargetAsThis, and an
unqualified invocation of the wrapper executing on the raw target. -/
theorem targetAsThis_get_spec_witness :
    TargetAsThisGet (fun _ _ _ => .ok (.func (.base 4 "m"))) (.obj 0 [] .null)
        (.str "m") (.proxyRef 1)
      = .ok (.func (.wrapper (.base 4 "m") (.obj 0 [] .null) (.proxyRef 1) 0)) ∧
    applyFn trivialHost (.wrapper (.base 4 "m") (.obj 0 [] .null) (.proxyRef 1) 0)
        (.proxyRef 1) [] = .ok (.obj 0 [] .null) :=
  have h := (targetAsThis_get_spec trivialHost
    (fun _ _ _ => .ok (.func (.base 4 "m")))
    (.obj 0 [] .null) (.str "m") (.proxyRef 1)).1 (.base 4 "m") rfl
  ⟨h.1, (h.2.2.1 (.proxyRef 1) [] rfl).trans rfl⟩

/-- C6: through a DefaultToPrimitive-decorated handler, a result of
delegation other than undefined passes through unchanged; when the result
is undefined and the key is Symbol.toPrimitive the layer returns a hint
function mapping the hint string to String of the target, the hint number
to Number of the target and the hint default to the valueOf call on the
target; when the result is undefined and the key is anything else,
undefined is returned. -/
theorem defaultToPrimitive_get_spec (H : Host) (superGet : GetHandler)
    (target : Value) (p : Key) (receiver : Value) :
    (∀ v : Value, superGet target p receiver = .ok v → v ≠ .undef →
       DefaultToPrimitiveGet superGet target p receiver = .ok v) ∧
    (superGet target p receiver = .ok .undef → p = .symToPrimitive →
       DefaultToPrimitiveGet superGet target p receiver
         = .ok (.func (.toPrimFn target)) ∧
       (∀ thisArg, applyFn H (.toPrimFn target) thisArg [.str "string"]
          = H.jsString target) ∧
       (∀ thisArg, applyFn H (.toPrimFn target) thisArg [.str "number"]
          = H.jsNumber target) ∧
       (∀ thisArg, applyFn H (.toPrimFn target) thisArg [.str "default"]
          = H.jsValueOf target)) ∧
    (superGet target p receiver = .ok .undef → p ≠ .symToPrimitive →
       DefaultToPrimitiveGet superGet target p receiver = .ok .undef) := by
  refine ⟨?_, ?_, ?_⟩
  · intro v hv hne
    exact DefaultToPrimitiveGet_ok_of_ne_undef _ _ _ _ _ hv hne
  · intro hv hp
    subst hp
    refine ⟨?_, fun _ => rfl, fun _ => rfl, fun _ => rfl⟩
    simp only [DefaultToPrimitiveGet]
    rw [hv]
  · intro hv hp
    simp only [DefaultToPrimitiveGet]
    rw [hv]

/-- C6 (witness): the hint function produced for a concrete target, and its
value at the hint number. -/
theorem defaultToPrimitive_get_spec_witness :
    DefaultToPrimitiveGet (fun _ _ _ => .ok .undef) (.num 5) .symToPrimitive .undef
      = .ok (.func (.toPrimFn (.num 5))) ∧
    applyFn trivialHost (.toPrimFn (.num 5)) .undef [.str "number"]
      = .ok (.num 0) :=
  have h := (defaultToPrimitive_get_spec trivialHost (fun _ _ _ => .ok .undef)
    (.num 5) .symToPrimitive .undef).2.1 rfl rfl
  ⟨h.1, (h.2.2.1 .undef).trans rfl⟩

/-- C7: through a DefaultToStringTag-decorated handler, a result of
delegation other than undefined passes through unchanged; an undefined
result at a key other than Symbol.toStringTag stays undefined; an undefined
result at Symbol.toStringTag yields the name of the constructor read from
the prototype of the target when that constructor is callable, and the
missing sentinel otherwise, in particular when the prototype is absent. -/
theorem defaultToStringTag_get_spec (superGet : GetHandler)
    (target : Value) (p : Key) (receiver : Value) :
    (∀ v : Value, superGet target p receiver = .ok v → v ≠ .undef →
       DefaultToStringTagGet superGet target p receiver = .ok v) ∧
    (superGet target p receiver = .ok .undef → p ≠ .symToStringTag →
       DefaultToStringTagGet superGet target p receiver = .ok .undef) ∧
    (superGet target p receiver = .ok .undef → p = .symToStringTag →
       (∀ f, optChainConstructor (jsGetPrototypeOf target) = .func f →
          DefaultToStringTagGet superGet target p receiver
            = .ok (.str (fnName f))) ∧
       ((∀ f, optChainConstructor (jsGetPrototypeOf target) ≠ .func f) →
          DefaultToStringTagGet superGet target p receiver = .ok .undef) ∧
       (jsGetPrototypeOf target = .null →
          DefaultToStringTagGet superGet target p receiver = .ok .undef)) := by
  refine ⟨?_, ?_, ?_⟩
  · intro v hv hne
    exact DefaultToStringTagGet_ok_of_ne_undef _ _ _ _ _ hv hne
  · intro hv hp
    simp only [DefaultToStringTagGet]
    rw [hv]
  · intro hv hp
    subst hp
    refine ⟨?_, ?_, ?_⟩
    · intro f hf
      simp only [DefaultToStringTagGet]
      rw [hv, hf]
    · intro hnf
      simp only [DefaultToStringTagGet]
      rw [hv]
    · intro hnull
      simp only [DefaultToStringTagGet]
      rw [hv, hnull]
      rfl

/-- C7 (witness): a proxy over an instance of a class Foo with no explicit
type tag reports Foo. -/
theorem defaultToStringTag_get_spec_witness :
    DefaultToStringTagGet (fun _ _ _ => .ok .undef)
      (.obj 1 [] (.obj 2 [(Key.str "constructor", Value.func (.base 7 "Foo"))] .null))
      .symToStringTag .undef
      = .ok (.str "Foo") :=
  ((defaultToStringTag_get_spec (fun _ _ _ => .ok .undef)
      (.obj 1 [] (.obj 2 [(Key.str "constructor", Value.func (.base 7 "Foo"))] .null))
      .symToStringTag .undef).2.2 rfl rfl).1 (.base 7 "Foo") rfl

/-- C2: the Mapped layer rewrites exactly the handler operations whose name
is an own property of Reflect and present on the handler, replacing the
target argument by its image under the mapper and passing every other
argument unchanged; operations with other names are untouched; and, in the
counter-instrumented semantics, the mapper runs exactly once per invocation
of a rewritten operation and the construction of the layer is a pure value
that performs no invocation. -/
theorem mapped_wraps_reflect_ops :
    (∀ (mapper : Value → Value) (h : HandlerTable) (name : String) (op : Op),
       reflectHasOwn name = true → h name = some op →
       MappedTable mapper h name = some (MappedOp mapper op) ∧
       ∀ (t : Value) (rest : List Value),
         MappedOp mapper op t rest = op (mapper t) rest) ∧
    (∀ (mapper : Value → Value) (h : HandlerTable) (name : String),
       reflectHasOwn name = false → MappedTable mapper h name = h name) ∧
    (∀ (mapper : Value → Value) (op : OpC),
       (∀ t rest n, (op t rest n).2 = n) →
       ∀ t rest n, (MappedOpC (countingMapper mapper) op t rest n).2 = n + 1) := by
  refine ⟨?_, ?_, ?_⟩
  · intro mapper h name op hro hop
    refine ⟨?_, fun _ _ => rfl⟩
    simp only [MappedTable]
    rw [hop]
    simp [hro]
  · intro mapper h name hro
    simp only [MappedTable]
    cases hop : h name with
    | none => rfl
    | some op => simp [hro]
  · intro mapper op hinv t rest n
    simp only [MappedOpC, countingMapper]
    exact hinv _ _ _

/-- C2 (witness): a concrete table where the get operation is rewritten to
receive the mapped target, an operation with a non-Reflect name is left
untouched, and one invocation of a rewritten operation runs the counting
mapper exactly once starting from a zero counter. -/
theorem mapped_wraps_reflect_ops_witness :
    MappedTable (fun _ => Value.null)
        (fun name => if name = "get" then some (fun t _ => .ok t) else none) "get"
      = some (MappedOp (fun _ => Value.null) (fun t _ => .ok t)) ∧
    MappedTable (fun _ => Value.null)
        (fun name => if name = "get" then some (fun t _ => .ok t) else none) "frob"
      = (fun name => if name = "get" then some (fun t _ => .ok t) else none) "frob" ∧
    (MappedOpC (countingMapper (fun _ => Value.null))
        (fun _ _ n => (.ok .undef, n)) .undef [] 0).2 = 1 :=
  ⟨(mapped_wraps_reflect_ops.1 (fun _ => Value.null) _ "get" _ (by decide) rfl).1,
   mapped_wraps_reflect_ops.2.1 (fun _ => Value.null) _ "frob" (by decide),
   mapped_wraps_reflect_ops.2.2 (fun _ => Value.null) _ (fun _ _ _ => rfl) .undef [] 0⟩

/-- C4 (counterexample): the Mapped decorator does not leave the handler
type it is applied to unchanged: applied to the class with identity 0,
whose get method returned the target, it rewrites that class in place, and
instantiating it afterwards yields the mapped behavior, not the original
one. -/
theorem mapped_mutates_applied_class_cex :
    (storeLookup (decorateMapped (fun _ => Value.null) 0
        ⟨1, [(0, fun t _ _ => Except.ok t)]⟩).table 0).map
      (fun g => g (.num 1) (.str "x") .undef) = some (.ok .null) ∧
    (storeLookup [(0, fun t _ _ => Except.ok t)] 0).map
      (fun g => g (.num 1) (.str "x") .undef) = some (.ok (.num 1)) :=
  ⟨rfl, rfl⟩

/-- C4 (amended): the four subclassing decorators TargetAsThis,
DefaultToPrimitive, DefaultToStringTag and AllowGetTarget leave every
existing handler type unchanged, in particular the base type they are
applied to, and allocate a new type whose get method wraps the get method
of the base; the Mapped decorator produces no new type and rewrites the
type it is applied to in place, but leaves every other type unchanged. -/
theorem layer_decoration_frame :
    (∀ (l : SubLayer) (supId : Nat) (s : ClassStore) (i : Nat),
       i ≠ s.nextId →
       storeLookup (decorateSubclass l supId s).2.table i
         = storeLookup s.table i) ∧
    (∀ (l : SubLayer) (supId : Nat) (s : ClassStore),
       storeLookup (decorateSubclass l supId s).2.table
           (decorateSubclass l supId s).1
         = some (subLayerGet l ((storeLookup s.table supId).getD reflectGet))) ∧
    (∀ (mapper : Value → Value) (appliedId : Nat) (s : ClassStore) (i : Nat),
       i ≠ appliedId →
       storeLookup (decorateMapped mapper appliedId s).table i
         = storeLookup s.table i) := by
  refine ⟨?_, ?_, ?_⟩
  · intro l supId s i hne
    simp only [decorateSubclass, storeLookup]
    rw [if_neg (fun h => hne h.symm)]
  · intro l supId s
    simp [decorateSubclass, storeLookup]
  · intro mapper appliedId s i hne
    exact storeLookup_updateClass_ne _ _ _ _ hne

/-- C4 (witness): decorating a concrete one-class registry with
AllowGetTarget leaves the base class lookup unchanged, and a Mapped
rewrite of class 0 leaves the lookup of any other identity unchanged. -/
theorem layer_decoration_frame_witness :
    storeLookup (decorateSubclass .allowGetTarget 0
        ⟨1, [(0, fun _ _ _ => Except.ok Value.undef)]⟩).2.table 0
      = some (fun _ _ _ => Except.ok Value.undef) ∧
    storeLookup (decorateMapped (fun _ => Value.null) 0
        ⟨1, [(0, fun _ _ _ => Except.ok Value.undef)]⟩).table 5
      = storeLookup [(0, fun _ _ _ => Except.ok Value.undef)] 5 :=
  ⟨(layer_decoration_frame.1 .allowGetTarget 0
      ⟨1, [(0, fun _ _ _ => Except.ok Value.undef)]⟩ 0 (by decide)).trans rfl,
   layer_decoration_frame.2.2 (fun _ => Value.null) 0
      ⟨1, [(0, fun _ _ _ => Except.ok Value.undef)]⟩ 5 (by decide)⟩

/-- C10: in the allocation-counting semantics of the TargetAsThis get
method, each read of a property whose delegated value is callable allocates
a fresh wrapper, so two successive reads of the same key yield two distinct
wrapper function objects that are not strictly equal, each carrying the
name of the original callable as a non-writable name property. -/
theorem targetAsThis_fresh_wrapper_allocation
    (superGet : GetHandler) (target : Value) (p : Key) (receiver : Value)
    (f : FnData) (c : Nat)
    (hf : superGet target p receiver = .ok (.func f)) :
    TargetAsThisGetAlloc superGet target p receiver c
      = (.ok (.func (.wrapper f target receiver c)), c + 1) ∧
    TargetAsThisGetAlloc superGet target p receiver (c + 1)
      = (.ok (.func (.wrapper f target receiver (c + 1))), c + 2) ∧
    FnData.wrapper f target receiver c ≠ FnData.wrapper f target receiver (c + 1) ∧
    strictEq (.func (.wrapper f target receiver c))
      (.func (.wrapper f target receiver (c + 1))) = false ∧
    fnName (.wrapper f target receiver c) = fnName f ∧
    fnNameWritable (.wrapper f target receiver c) = false := by
  refine ⟨?_, ?_, ?_, ?_, rfl, rfl⟩
  · simp only [TargetAsThisGetAlloc]
    rw [hf]
  · simp only [TargetAsThisGetAlloc]
    rw [hf]
  · intro h
    injection h with h1 h2 h3 h4
    omega
  · simp only [strictEq, fnId]
    simp

/-- C10 (witness): the first read from counter 0 yields the wrapper tagged
0 and the next counter 1, and the wrappers of two successive reads are not
strictly equal. -/
theorem targetAsThis_fresh_wrapper_allocation_witness :
    TargetAsThisGetAlloc (fun _ _ _ => .ok (.func (.base 4 "m")))
        (.obj 0 [] .null) (.str "m") (.proxyRef 1) 0
      = (.ok (.func (.wrapper (.base 4 "m") (.obj 0 [] .null) (.proxyRef 1) 0)), 1) ∧
    strictEq (.func (.wrapper (.base 4 "m") (.obj 0 [] .null) (.proxyRef 1) 0))
      (.func (.wrapper (.base 4 "m") (.obj 0 [] .null) (.proxyRef 1) 1)) = false :=
  have h := targetAsThis_fresh_wrapper_allocation
    (fun _ _ _ => .ok (.func (.base 4 "m"))) (.obj 0 [] .null) (.str "m")
    (.proxyRef 1) (.base 4 "m") 0 rfl
  ⟨h.1, h.2.2.2.1⟩

end PHDecorators
